import Mathlib

/-!
Shallow embedding of the turn-rotation scheduler of `src/server.ts`
(webcontrollerUE).  The server keeps six mutable top-level variables
(`playerQueue`, `activePlayer`, `roundTimer`, `gameClientSocket`,
`countdownTimer`, `roundEndTime`) and reacts to socket.io events.  We model
the state as a record, every inbound socket event (plus the firing of a
scheduled callback) as a constructor of `Event`, and each handler as a pure
function `ServerState → ServerState × List Emit` returning the mutated state
and the outbound messages it emitted, in program order.

Timers: `setTimeout` and `setInterval` hand out fresh handles; the server
stores the round-deadline handle in `roundTimer` and the tick-interval handle
in `countdownTimer`, while the preparation `setTimeout` handle is dropped by
the code.  We keep the multiset of live scheduled callbacks in `pending`
(handle, kind); `clearTimeout`/`clearInterval` remove a handle, firing a
timeout removes its own handle, firing an interval keeps it.  A timer firing
is delivered as the `Event.timerFire` event, serialized with the socket
events exactly as the node event loop serializes callbacks.

Wall-clock values (`Date.now()`, the `timestamp` field of
`recordGameSession`, the payload of `timeUpdate`) are real-time dependent and
are not modelled beyond the stored `roundEndTime`; no claim depends on them.
Server-initiated termination (`socket.disconnect()`) is modelled as the
outbound command `Msg.disconnectSocket`; the transport then delivers the
corresponding `Event.disconnect` as a later serialized event.

The `lastQueueUpdate` field is instrumentation: it records, for each session
identity, the payload of the last `queueUpdate` message sent to it.  It is
written exactly at the three code sites that emit `queueUpdate` and is read
by no handler.
-/

namespace WebControllerUE

/-- Round duration in milliseconds (server.ts line 26). -/
def ROUND_DURATION_MS : Nat := 30000

/-- Preparation duration in milliseconds (server.ts line 27). -/
def PREPARE_DURATION_MS : Nat := 3000

/-- The `Player` record of server.ts (lines 30 to 35).  `id` and `userId` are
both the socket id. -/
structure Player where
  id : Nat
  name : String
  score : Int
  userId : Nat
deriving DecidableEq

/-- Outbound socket messages emitted by the server. -/
inductive Msg where
  | queueUpdate (position total : Nat)
  | prepareToPlay (duration : Nat)
  | yourTurn
  | roundStart (playerName : String)
  | gameAction (direction action : String)
  | requestFinalScore
  | scoreUpdate (score : Int)
  | timeUpdate (remaining : Int)
  | gameOver (finalScore : Int)
  | recordGameSession (userId : Nat) (playerName : String) (totalScore : Int)
  | waitingForPlayers
  | gameAvailable
  | connectionStatus (isGameActive : Bool)
  | disconnectSocket
deriving DecidableEq

/-- Destination of an outbound message: a specific socket or a broadcast. -/
inductive Dest where
  | toSocket (sid : Nat)
  | broadcast
deriving DecidableEq

/-- One outbound emission. -/
structure Emit where
  dest : Dest
  msg : Msg
deriving DecidableEq

/-- Shorthand for an emission to one socket. -/
def emitTo (sid : Nat) (m : Msg) : Emit := ⟨Dest.toSocket sid, m⟩

/-- The kind of a scheduled callback: the preparation `setTimeout` of
`prepareRound` (which closes over the player), the round-deadline
`setTimeout` of `startRound`, or the one-second tick `setInterval`. -/
inductive TimerKind where
  | prepareT (p : Player)
  | roundT
  | tickT
deriving DecidableEq

/-- The mutable top-level state of server.ts (lines 38 to 46), plus the
multiset of live scheduled callbacks, a fresh-handle counter, and the
`lastQueueUpdate` instrumentation described in the file header. -/
structure ServerState where
  playerQueue : List Player
  activePlayer : Option Player
  roundTimer : Option Nat
  gameClientSocket : Option Nat
  countdownTimer : Option Nat
  roundEndTime : Int
  pending : List (Nat × TimerKind)
  nextTimerId : Nat
  lastQueueUpdate : List (Nat × Nat × Nat)
deriving DecidableEq

/-- The state at process start: everything empty (server.ts lines 38 to 46). -/
def initState : ServerState :=
  { playerQueue := [], activePlayer := none, roundTimer := none,
    gameClientSocket := none, countdownTimer := none, roundEndTime := 0,
    pending := [], nextTimerId := 0, lastQueueUpdate := [] }

/-- Record that a `queueUpdate` with the given payload was sent to `sid`
(instrumentation; newest entry first). -/
def recordQU (sid pos total : Nat) (m : List (Nat × Nat × Nat)) :
    List (Nat × Nat × Nat) :=
  (sid, pos, total) :: m

/-- The payload of the last `queueUpdate` sent to `sid`, if any. -/
def lookupQU (sid : Nat) : List (Nat × Nat × Nat) → Option (Nat × Nat)
  | [] => none
  | e :: rest => if e.1 = sid then some (e.2.1, e.2.2) else lookupQU sid rest

/-- `prepareRound` (server.ts lines 123 to 133): notify the player with
`prepareToPlay` and schedule `startRound` after `PREPARE_DURATION_MS`.  The
`setTimeout` handle is not stored anywhere by the code. -/
def prepareRound (p : Player) (s : ServerState) : ServerState × List Emit :=
  ({ s with pending := s.pending ++ [(s.nextTimerId, TimerKind.prepareT p)],
            nextTimerId := s.nextTimerId + 1 },
   [emitTo p.id (Msg.prepareToPlay PREPARE_DURATION_MS)])

/-- `startRound` (server.ts lines 139 to 163): set the active player and the
round end time, notify player and game client, store a fresh round-deadline
`setTimeout` in `roundTimer`, clear a previous tick interval if any, and
store a fresh tick `setInterval` in `countdownTimer`. -/
def startRound (p : Player) (s : ServerState) : ServerState × List Emit :=
  let pend1 := s.pending ++ [(s.nextTimerId, TimerKind.roundT)]
  let pend2 := match s.countdownTimer with
    | some ct => pend1.filter (fun tk => tk.1 != ct)
    | none => pend1
  ({ s with
      activePlayer := some p,
      roundEndTime := (ROUND_DURATION_MS : Int),
      roundTimer := some s.nextTimerId,
      pending := pend2 ++ [(s.nextTimerId + 1, TimerKind.tickT)],
      countdownTimer := some (s.nextTimerId + 1),
      nextTimerId := s.nextTimerId + 2 },
   emitTo p.id Msg.yourTurn ::
     (match s.gameClientSocket with
      | some g => [emitTo g (Msg.roundStart p.name)]
      | none => []))

/-- Renumbering loop `playerQueue.forEach(...)` (server.ts lines 105 to 107
and 280 to 282): send `queueUpdate` with 1-based position and the given total
to every queued player in order. -/
def renumberFrom (total : Nat) : Nat → List Player → ServerState →
    ServerState × List Emit
  | _, [], s => (s, [])
  | base, p :: rest, s =>
    let s1 := { s with
      lastQueueUpdate := recordQU p.id (base + 1) total s.lastQueueUpdate }
    let r := renumberFrom total (base + 1) rest s1
    (r.1, emitTo p.id (Msg.queueUpdate (base + 1) total) :: r.2)

/-- Renumber the whole current queue with total equal to its length. -/
def renumberQueue (s : ServerState) : ServerState × List Emit :=
  renumberFrom s.playerQueue.length 0 s.playerQueue s

/-- `processEndOfRound` (server.ts lines 71 to 117): guarded by
`activePlayer` being present; writes the final score into the active record,
emits `recordGameSession` to the game client if bound and `gameOver` to the
player, clears the active player, then either prepares the queue front and
renumbers the remainder, or broadcasts `gameAvailable` (plus
`waitingForPlayers` to the game client if bound). -/
def processEndOfRound (finalScore : Int) (s : ServerState) :
    ServerState × List Emit :=
  match s.activePlayer with
  | none => (s, [])
  | some ap =>
    let finalAp : Player := { ap with score := finalScore }
    let out1 := (match s.gameClientSocket with
      | some g =>
          [emitTo g (Msg.recordGameSession finalAp.userId finalAp.name
            finalAp.score)]
      | none => [])
      ++ [emitTo finalAp.id (Msg.gameOver finalAp.score)]
    match s.playerQueue with
    | nextPlayer :: rest =>
      let r1 := prepareRound nextPlayer
        { s with activePlayer := none, playerQueue := rest }
      let r2 := renumberQueue r1.1
      (r2.1, out1 ++ r1.2 ++ r2.2)
    | [] =>
      ({ s with activePlayer := none },
       out1 ++ [⟨Dest.broadcast, Msg.gameAvailable⟩]
            ++ (match s.gameClientSocket with
                | some g => [emitTo g Msg.waitingForPlayers]
                | none => []))

/-- `handleTimeUp` (server.ts lines 54 to 66): clear the stored round timer,
then with an active player either ask the bound game client for the final
score or, with no game client, settle immediately with the last known
score. -/
def handleTimeUp (s : ServerState) : ServerState × List Emit :=
  let s2 : ServerState := { s with
    pending := match s.roundTimer with
      | some rt => s.pending.filter (fun tk => tk.1 != rt)
      | none => s.pending,
    roundTimer := none }
  match s.activePlayer, s.gameClientSocket with
  | some _, some g => (s2, [emitTo g Msg.requestFinalScore])
  | some ap, none => processEndOfRound ap.score s2
  | none, _ => (s2, [])

/-- The `client_type` field of the `register` event; anything other than the
two known strings disconnects the sender. -/
inductive ClientType where
  | game_client
  | web_controller
  | unknownType
deriving DecidableEq

/-- The fresh `Player` record built by the `joinGame` handler
(server.ts line 217). -/
def newPlayer (sid : Nat) (playerName : String) : Player :=
  { id := sid, name := playerName, score := 0, userId := sid }

/-- The `register` handler (server.ts lines 171 to 210).  A second
`game_client` registration disconnects the new socket and changes nothing; a
first one binds the socket and, when nobody is playing, immediately sends
`waitingForPlayers` (lines 197 to 200) — when a round is active nothing is
sent.  A `web_controller` gets `connectionStatus`; an unknown type is
disconnected. -/
def handleRegister (sid : Nat) (ctype : ClientType) (s : ServerState) :
    ServerState × List Emit :=
  match ctype with
  | ClientType.game_client =>
    match s.gameClientSocket with
    | some _ => (s, [emitTo sid Msg.disconnectSocket])
    | none =>
      match s.activePlayer with
      | none => ({ s with gameClientSocket := some sid },
          [emitTo sid Msg.waitingForPlayers])
      | some _ => ({ s with gameClientSocket := some sid }, [])
  | ClientType.web_controller =>
      (s, [emitTo sid (Msg.connectionStatus s.activePlayer.isSome)])
  | ClientType.unknownType => (s, [emitTo sid Msg.disconnectSocket])

/-- The `joinGame` handler (server.ts lines 213 to 230): ignored from the
bound game client; with no active player and an empty queue the joiner is
prepared directly; otherwise it is appended to the queue and told its
position and the total (both equal to the new queue length). -/
def handleJoinGame (sid : Nat) (playerName : String) (s : ServerState) :
    ServerState × List Emit :=
  if s.gameClientSocket = some sid then (s, [])
  else
    let np := newPlayer sid playerName
    if s.activePlayer = none ∧ s.playerQueue = [] then prepareRound np s
    else
      let q := s.playerQueue ++ [np]
      ({ s with
          playerQueue := q,
          lastQueueUpdate := recordQU sid q.length q.length s.lastQueueUpdate },
       [emitTo sid (Msg.queueUpdate q.length q.length)])

/-- The authorization check `activePlayer && socket.id === activePlayer.id`
used by the `move` and `endGame` handlers. -/
def isActiveHolder (sid : Nat) (s : ServerState) : Bool :=
  match s.activePlayer with
  | some p => p.id == sid
  | none => false

/-- The `move` handler (server.ts lines 233 to 241): forwarded to the game
client as `gameAction` only when the sender is the active player and a game
client is bound; otherwise nothing happens. -/
def handleMove (sid : Nat) (direction action : String) (s : ServerState) :
    ServerState × List Emit :=
  if isActiveHolder sid s then
    match s.gameClientSocket with
    | some g => (s, [emitTo g (Msg.gameAction direction action)])
    | none => (s, [])
  else (s, [])

/-- The `endGame` handler (server.ts lines 244 to 250): only the active
player triggers `handleTimeUp`. -/
def handleEndGame (sid : Nat) (s : ServerState) : ServerState × List Emit :=
  if isActiveHolder sid s then handleTimeUp s else (s, [])

/-- The `submitFinalScore` listener (server.ts lines 182 to 186): attached to
the registered game client socket and guarded by
`socket.id === gameClientSocket?.id && activePlayer`. -/
def handleSubmitFinalScore (sid : Nat) (score : Int) (s : ServerState) :
    ServerState × List Emit :=
  if s.gameClientSocket = some sid ∧ s.activePlayer ≠ none then
    processEndOfRound score s
  else (s, [])

/-- The `updateScore` listener (server.ts lines 189 to 195): same guard;
writes the score into the active record and forwards it as `scoreUpdate`. -/
def handleUpdateScore (sid : Nat) (score : Int) (s : ServerState) :
    ServerState × List Emit :=
  if s.gameClientSocket = some sid then
    match s.activePlayer with
    | some ap =>
      ({ s with activePlayer := some { ap with score := score } },
       [emitTo ap.id (Msg.scoreUpdate score)])
    | none => (s, [])
  else (s, [])

/-- Index of the queued player with the given socket id, as
`playerQueue.findIndex(p => p.id === socket.id)` (server.ts line 275). -/
def queueIndexOf (sid : Nat) (q : List Player) : Option Nat :=
  q.findIdx? (fun p => p.id == sid)

/-- The non-game-client part of the `disconnect` handler (server.ts lines
268 to 284): the active player disconnecting ends the round via
`handleTimeUp`; a queued player is spliced out and the remaining queue is
renumbered; anyone else is ignored. -/
def handlePlayerDisconnect (sid : Nat) (s : ServerState) :
    ServerState × List Emit :=
  if isActiveHolder sid s then handleTimeUp s
  else
    match queueIndexOf sid s.playerQueue with
    | some i => renumberQueue { s with playerQueue := s.playerQueue.eraseIdx i }
    | none => (s, [])

/-- The `disconnect` handler (server.ts lines 253 to 285): the bound game
client disconnecting clears the binding and, with an active player, ends the
round via `handleTimeUp`; otherwise the player part runs. -/
def handleDisconnect (sid : Nat) (s : ServerState) : ServerState × List Emit :=
  match s.gameClientSocket with
  | some g =>
    if g = sid then
      let s1 := { s with gameClientSocket := none }
      if s1.activePlayer ≠ none then handleTimeUp s1 else (s1, [])
    else handlePlayerDisconnect sid s
  | none => handlePlayerDisconnect sid s

/-- Firing of the scheduled callback with handle `tid`: a preparation
timeout runs `startRound` for its player, the round-deadline timeout runs
`handleTimeUp`, the tick interval emits `timeUpdate` to the active player
(and stays scheduled).  A handle that is not live does nothing. -/
def fireTimer (tid : Nat) (s : ServerState) : ServerState × List Emit :=
  match List.lookup tid s.pending with
  | none => (s, [])
  | some (TimerKind.prepareT p) =>
      startRound p { s with pending := s.pending.filter (fun tk => tk.1 != tid) }
  | some TimerKind.roundT =>
      handleTimeUp { s with pending := s.pending.filter (fun tk => tk.1 != tid) }
  | some TimerKind.tickT =>
      match s.activePlayer with
      | some ap => (s, [emitTo ap.id (Msg.timeUpdate (max 0 s.roundEndTime))])
      | none => (s, [])

/-- Inbound events: the socket.io events handled by server.ts, plus the
firing of a scheduled callback, all serialized by the node event loop. -/
inductive Event where
  | register (sid : Nat) (ctype : ClientType)
  | joinGame (sid : Nat) (playerName : String)
  | move (sid : Nat) (direction action : String)
  | endGame (sid : Nat)
  | submitFinalScore (sid : Nat) (score : Int)
  | updateScore (sid : Nat) (score : Int)
  | disconnect (sid : Nat)
  | timerFire (tid : Nat)
deriving DecidableEq

/-- Dispatch one serialized event to its handler. -/
def step (e : Event) (s : ServerState) : ServerState × List Emit :=
  match e with
  | Event.register sid ct => handleRegister sid ct s
  | Event.joinGame sid n => handleJoinGame sid n s
  | Event.move sid d a => handleMove sid d a s
  | Event.endGame sid => handleEndGame sid s
  | Event.submitFinalScore sid v => handleSubmitFinalScore sid v s
  | Event.updateScore sid v => handleUpdateScore sid v s
  | Event.disconnect sid => handleDisconnect sid s
  | Event.timerFire tid => fireTimer tid s

/-- Run a sequence of serialized events, collecting all emissions in
order. -/
def run : List Event → ServerState → ServerState × List Emit
  | [], s => (s, [])
  | e :: es, s =>
    let r := step e s
    let r2 := run es r.1
    (r2.1, r.2 ++ r2.2)

/-! ### Derived observations and invariant predicates -/

/-- The session identities of the queued players, in queue order. -/
def queueIds (s : ServerState) : List Nat := s.playerQueue.map Player.id

/-- The players closed over by the live preparation timeouts in a pending
list. -/
def prepList (l : List (Nat × TimerKind)) : List Player :=
  l.filterMap (fun tk => match tk.2 with
    | TimerKind.prepareT p => some p
    | _ => none)

/-- The players with a live preparation timeout. -/
def pendingPrepares (s : ServerState) : List Player := prepList s.pending

/-- Every player of the list was last told a position forming the contiguous
range starting at `base + 1`, in list order. -/
def positionsFrom (m : List (Nat × Nat × Nat)) (base : Nat) :
    List Player → Prop
  | [] => True
  | p :: rest =>
    (lookupQU p.id m).map Prod.fst = some (base + 1)
      ∧ positionsFrom m (base + 1) rest

instance instDecPositionsFrom (m : List (Nat × Nat × Nat)) :
    (base : Nat) → (q : List Player) → Decidable (positionsFrom m base q)
  | _, [] => isTrue trivial
  | base, _ :: rest =>
    have : Decidable (positionsFrom m (base + 1) rest) :=
      instDecPositionsFrom m (base + 1) rest
    inferInstanceAs (Decidable (_ ∧ _))

/-- The scheduler invariant: the queue has no duplicate session identities,
neither the active player nor any player awaiting its preparation timeout is
also queued, and the positions last reported to the queued players form the
contiguous range 1..N in queue order. -/
def Inv (s : ServerState) : Prop :=
  (queueIds s).Nodup
  ∧ (∀ p ∈ s.activePlayer.toList, p.id ∉ queueIds s)
  ∧ (∀ p ∈ pendingPrepares s, p.id ∉ queueIds s)
  ∧ positionsFrom s.lastQueueUpdate 0 s.playerQueue

instance instDecInv (s : ServerState) : Decidable (Inv s) := by
  unfold Inv; infer_instance

/-- Side condition on one inbound event: a `joinGame` must come from a
session that is not already queued, active, or awaiting its preparation
timeout.  All other events are unconstrained. -/
def eventOk (s : ServerState) : Event → Prop
  | Event.joinGame sid _ =>
      sid ∉ queueIds s
      ∧ s.activePlayer.map Player.id ≠ some sid
      ∧ sid ∉ (pendingPrepares s).map Player.id
  | _ => True

instance instDecEventOk (s : ServerState) (e : Event) : Decidable (eventOk s e) := by
  cases e <;> simp only [eventOk] <;> infer_instance

/-- The side condition holds at every step of an event sequence. -/
def stepsOk (s : ServerState) : List Event → Prop
  | [] => True
  | e :: es => eventOk s e ∧ stepsOk (step e s).1 es

instance instDecStepsOk : (s : ServerState) → (es : List Event) →
    Decidable (stepsOk s es)
  | _, [] => isTrue trivial
  | s, e :: es =>
    have : Decidable (stepsOk (step e s).1 es) := instDecStepsOk (step e s).1 es
    inferInstanceAs (Decidable (eventOk s e ∧ stepsOk (step e s).1 es))

/-! ### Concrete reachable states used by witnesses and counterexamples -/

/-- State reached after one player joins an idle system and its preparation
timeout fires: player 1 is active, the queue is empty, no resource bound. -/
def soloActiveState : ServerState :=
  (run [Event.joinGame 1 "A", Event.timerFire 0] initState).1

/-- State reached after just a resource (socket 9) registers. -/
def boundState : ServerState :=
  (run [Event.register 9 ClientType.game_client] initState).1

/-- State with resource 9 bound and player 1 active, mid-round. -/
def boundActiveState : ServerState :=
  (run [Event.register 9 ClientType.game_client, Event.joinGame 1 "A",
    Event.timerFire 0] initState).1

/-- Trace for the stale-round-timer scenario: resource 9 registers, player 1
plays, player 2 queues, the resource submits a final score unprompted while
the round is still Active (settling the round and preparing player 2), and
player 2 then starts its round. -/
def staleTrace : List Event :=
  [Event.register 9 ClientType.game_client, Event.joinGame 1 "A",
   Event.timerFire 0, Event.joinGame 2 "B", Event.submitFinalScore 9 50,
   Event.timerFire 3]

/-! ### Basic lemmas about the instrumentation -/

theorem lookupQU_cons_self (sid p t : Nat) (m : List (Nat × Nat × Nat)) :
    lookupQU sid ((sid, p, t) :: m) = some (p, t) := by
  simp [lookupQU]

theorem lookupQU_cons_ne (x sid p t : Nat) (m : List (Nat × Nat × Nat))
    (h : sid ≠ x) : lookupQU x ((sid, p, t) :: m) = lookupQU x m := by
  simp [lookupQU, h]

theorem positionsFrom_congr (m m' : List (Nat × Nat × Nat)) :
    ∀ (b : Nat) (q : List Player),
    (∀ p ∈ q, lookupQU p.id m' = lookupQU p.id m) →
    positionsFrom m b q → positionsFrom m' b q := by
  intro b q
  induction q generalizing b with
  | nil => intro _ _; trivial
  | cons p rest ih =>
    intro hl hp
    obtain ⟨h1, h2⟩ := hp
    refine ⟨?_, ih (b + 1) (fun x hx => hl x (List.mem_cons_of_mem _ hx)) h2⟩
    rw [hl p (List.mem_cons_self _ _)]
    exact h1

theorem positionsFrom_append (m : List (Nat × Nat × Nat)) (x : Player) :
    ∀ (b : Nat) (q : List Player),
    positionsFrom m b q →
    (lookupQU x.id m).map Prod.fst = some (b + q.length + 1) →
    positionsFrom m b (q ++ [x]) := by
  intro b q
  induction q generalizing b with
  | nil =>
    intro _ h
    exact ⟨by simpa using h, trivial⟩
  | cons p rest ih =>
    intro hp hx
    obtain ⟨h1, h2⟩ := hp
    refine ⟨h1, ih (b + 1) h2 ?_⟩
    have harith : b + (p :: rest).length + 1 = b + 1 + rest.length + 1 := by
      simp [List.length_cons]; omega
    rw [harith] at hx
    exact hx

theorem prepList_append (l1 l2 : List (Nat × TimerKind)) :
    prepList (l1 ++ l2) = prepList l1 ++ prepList l2 := by
  simp [prepList, List.filterMap_append]

theorem mem_prepList_filter (f : Nat × TimerKind → Bool)
    (l : List (Nat × TimerKind)) (p : Player)
    (h : p ∈ prepList (l.filter f)) : p ∈ prepList l := by
  simp only [prepList, List.mem_filterMap] at h ⊢
  obtain ⟨x, hx, hfx⟩ := h
  exact ⟨x, (List.filter_sublist l).subset hx, hfx⟩

theorem mem_prepList_of_mem {l : List (Nat × TimerKind)} {a : Nat} {p : Player}
    (h : (a, TimerKind.prepareT p) ∈ l) : p ∈ prepList l := by
  simp only [prepList, List.mem_filterMap]
  exact ⟨(a, TimerKind.prepareT p), h, rfl⟩

theorem mem_of_lookup_eq_some {l : List (Nat × TimerKind)} {a : Nat}
    {b : TimerKind} (h : List.lookup a l = some b) : (a, b) ∈ l := by
  induction l with
  | nil => simp [List.lookup] at h
  | cons hd tl ih =>
    rw [List.lookup] at h
    by_cases hab : a == hd.1
    · simp [hab] at h
      simp only [List.mem_cons]
      left
      have : a = hd.1 := by simpa using hab
      rw [this, ← h]
    · simp [hab] at h
      exact List.mem_cons_of_mem _ (ih h)

/-! ### Component lemmas for the handler functions -/

@[simp] theorem prepareRound_fst_playerQueue (p : Player) (s : ServerState) :
    (prepareRound p s).1.playerQueue = s.playerQueue := rfl

@[simp] theorem prepareRound_fst_activePlayer (p : Player) (s : ServerState) :
    (prepareRound p s).1.activePlayer = s.activePlayer := rfl

@[simp] theorem prepareRound_fst_pending (p : Player) (s : ServerState) :
    (prepareRound p s).1.pending
      = s.pending ++ [(s.nextTimerId, TimerKind.prepareT p)] := rfl

@[simp] theorem prepareRound_fst_lastQueueUpdate (p : Player) (s : ServerState) :
    (prepareRound p s).1.lastQueueUpdate = s.lastQueueUpdate := rfl

@[simp] theorem prepareRound_fst_gameClientSocket (p : Player) (s : ServerState) :
    (prepareRound p s).1.gameClientSocket = s.gameClientSocket := rfl

@[simp] theorem renumberFrom_fst_playerQueue (t : Nat) :
    ∀ (b : Nat) (q : List Player) (s : ServerState),
    (renumberFrom t b q s).1.playerQueue = s.playerQueue := by
  intro b q
  induction q generalizing b with
  | nil => intro s; rfl
  | cons p rest ih => intro s; simp [renumberFrom, ih]

@[simp] theorem renumberFrom_fst_activePlayer (t : Nat) :
    ∀ (b : Nat) (q : List Player) (s : ServerState),
    (renumberFrom t b q s).1.activePlayer = s.activePlayer := by
  intro b q
  induction q generalizing b with
  | nil => intro s; rfl
  | cons p rest ih => intro s; simp [renumberFrom, ih]

@[simp] theorem renumberFrom_fst_pending (t : Nat) :
    ∀ (b : Nat) (q : List Player) (s : ServerState),
    (renumberFrom t b q s).1.pending = s.pending := by
  intro b q
  induction q generalizing b with
  | nil => intro s; rfl
  | cons p rest ih => intro s; simp [renumberFrom, ih]

@[simp] theorem renumberFrom_fst_gameClientSocket (t : Nat) :
    ∀ (b : Nat) (q : List Player) (s : ServerState),
    (renumberFrom t b q s).1.gameClientSocket = s.gameClientSocket := by
  intro b q
  induction q generalizing b with
  | nil => intro s; rfl
  | cons p rest ih => intro s; simp [renumberFrom, ih]

theorem renumberFrom_lookup_other (t : Nat) :
    ∀ (b : Nat) (q : List Player) (s : ServerState) (x : Nat),
    x ∉ q.map Player.id →
    lookupQU x (renumberFrom t b q s).1.lastQueueUpdate
      = lookupQU x s.lastQueueUpdate := by
  intro b q
  induction q generalizing b with
  | nil => intro s x _; rfl
  | cons p rest ih =>
    intro s x hx
    simp only [List.map_cons, List.mem_cons] at hx
    push_neg at hx
    simp only [renumberFrom]
    rw [ih (b + 1) _ x hx.2]
    exact lookupQU_cons_ne x p.id (b + 1) t s.lastQueueUpdate (fun h => hx.1 h.symm)

theorem renumberFrom_positions (t : Nat) :
    ∀ (b : Nat) (q : List Player) (s : ServerState),
    (q.map Player.id).Nodup →
    positionsFrom (renumberFrom t b q s).1.lastQueueUpdate b q := by
  intro b q
  induction q generalizing b with
  | nil => intro s _; trivial
  | cons p rest ih =>
    intro s hnd
    simp only [List.map_cons, List.nodup_cons] at hnd
    constructor
    · show (lookupQU p.id (renumberFrom t b (p :: rest) s).1.lastQueueUpdate).map
        Prod.fst = some (b + 1)
      simp only [renumberFrom]
      rw [renumberFrom_lookup_other t (b + 1) rest _ p.id hnd.1]
      simp [recordQU, lookupQU_cons_self]
    · show positionsFrom (renumberFrom t b (p :: rest) s).1.lastQueueUpdate
        (b + 1) rest
      simp only [renumberFrom]
      exact ih (b + 1) _ hnd.2

theorem renumberFrom_emits (t : Nat) :
    ∀ (b : Nat) (q : List Player) (s : ServerState),
    ∀ e ∈ (renumberFrom t b q s).2,
    ∃ x pos, e = emitTo x (Msg.queueUpdate pos t) := by
  intro b q
  induction q generalizing b with
  | nil => intro s e he; simp [renumberFrom] at he
  | cons p rest ih =>
    intro s e he
    simp only [renumberFrom, List.mem_cons] at he
    rcases he with he | he
    · exact ⟨p.id, b + 1, he⟩
    · exact ih (b + 1) _ e he

/-! ### Preservation of the invariant by every handler -/

theorem inv_prepareRound (p : Player) (s : ServerState) (h : Inv s)
    (hp : p.id ∉ queueIds s) : Inv (prepareRound p s).1 := by
  obtain ⟨h1, h2, h3, h4⟩ := h
  refine ⟨h1, h2, ?_, h4⟩
  intro x hx
  have hx' : x ∈ prepList (s.pending ++ [(s.nextTimerId, TimerKind.prepareT p)]) := hx
  rw [prepList_append] at hx'
  rcases List.mem_append.mp hx' with hmem | hmem
  · exact h3 x hmem
  · have hxp : x = p := by simpa [prepList] using hmem
    rw [hxp]; exact hp

@[simp] theorem startRound_fst_activePlayer (p : Player) (s : ServerState) :
    (startRound p s).1.activePlayer = some p := rfl

@[simp] theorem startRound_fst_playerQueue (p : Player) (s : ServerState) :
    (startRound p s).1.playerQueue = s.playerQueue := rfl

@[simp] theorem startRound_fst_lastQueueUpdate (p : Player) (s : ServerState) :
    (startRound p s).1.lastQueueUpdate = s.lastQueueUpdate := rfl

theorem startRound_fst_pending (p : Player) (s : ServerState) :
    (startRound p s).1.pending = (match s.countdownTimer with
      | some ct => (s.pending ++ [(s.nextTimerId, TimerKind.roundT)]).filter
          (fun tk => tk.1 != ct)
      | none => s.pending ++ [(s.nextTimerId, TimerKind.roundT)])
        ++ [(s.nextTimerId + 1, TimerKind.tickT)] := rfl

theorem inv_startRound (p : Player) (s : ServerState) (h : Inv s)
    (hp : p.id ∉ queueIds s) : Inv (startRound p s).1 := by
  obtain ⟨h1, h2, h3, h4⟩ := h
  refine ⟨h1, ?_, ?_, h4⟩
  · intro x hx
    rw [Option.mem_toList, startRound_fst_activePlayer, Option.mem_def,
      Option.some_inj] at hx
    rw [← hx]; exact hp
  · intro x hx
    apply h3 x
    have hx' := hx
    rw [pendingPrepares, startRound_fst_pending, prepList_append] at hx'
    rcases List.mem_append.mp hx' with hmem | hmem
    · rcases hc : s.countdownTimer with _ | ct
      · rw [hc] at hmem
        rw [prepList_append] at hmem
        rcases List.mem_append.mp hmem with hm | hm
        · exact hm
        · simp [prepList] at hm
      · rw [hc] at hmem
        have hmem2 := mem_prepList_filter _ _ _ hmem
        rw [prepList_append] at hmem2
        rcases List.mem_append.mp hmem2 with hm | hm
        · exact hm
        · simp [prepList] at hm
    · simp [prepList] at hmem

theorem inv_renumberQueue_of (s : ServerState)
    (h1 : (queueIds s).Nodup)
    (h2 : ∀ p ∈ s.activePlayer.toList, p.id ∉ queueIds s)
    (h3 : ∀ p ∈ pendingPrepares s, p.id ∉ queueIds s) :
    Inv (renumberQueue s).1 := by
  refine ⟨?_, ?_, ?_, ?_⟩
  · show ((renumberQueue s).1.playerQueue.map Player.id).Nodup
    rw [renumberQueue, renumberFrom_fst_playerQueue]
    exact h1
  · intro x hx
    show x.id ∉ (renumberQueue s).1.playerQueue.map Player.id
    rw [renumberQueue, renumberFrom_fst_playerQueue]
    rw [renumberQueue, renumberFrom_fst_activePlayer] at hx
    exact h2 x hx
  · intro x hx
    show x.id ∉ (renumberQueue s).1.playerQueue.map Player.id
    rw [renumberQueue, renumberFrom_fst_playerQueue]
    have hx' : x ∈ prepList (renumberFrom s.playerQueue.length 0
        s.playerQueue s).1.pending := hx
    rw [renumberFrom_fst_pending] at hx'
    exact h3 x hx'
  · show positionsFrom (renumberQueue s).1.lastQueueUpdate 0
      (renumberQueue s).1.playerQueue
    rw [renumberQueue, renumberFrom_fst_playerQueue]
    exact renumberFrom_positions _ 0 _ s h1

theorem processEndOfRound_active_none (v : Int) (s : ServerState) :
    (processEndOfRound v s).1.activePlayer = none := by
  unfold processEndOfRound
  rcases hA : s.activePlayer with _ | ap
  · simpa using hA
  · rcases hQ : s.playerQueue with _ | ⟨nx, rest⟩
    · simp
    · simp [renumberQueue]

theorem processEndOfRound_of_active_none (v : Int) (s : ServerState)
    (h : s.activePlayer = none) : processEndOfRound v s = (s, []) := by
  unfold processEndOfRound
  rw [h]

theorem inv_processEndOfRound (v : Int) (s : ServerState) (h : Inv s) :
    Inv (processEndOfRound v s).1 := by
  obtain ⟨h1, h2, h3, h4⟩ := h
  unfold processEndOfRound
  rcases hA : s.activePlayer with _ | ap
  · exact ⟨h1, h2, h3, h4⟩
  · rcases hQ : s.playerQueue with _ | ⟨nx, rest⟩
    · show Inv { s with activePlayer := none, playerQueue := [] }
      refine ⟨List.nodup_nil, ?_, ?_, trivial⟩
      · intro x hx
        simp at hx
      · intro x hx
        show x.id ∉ ([] : List Player).map Player.id
        simp
    · -- a next player is popped, prepared, and the remainder renumbered
      have hids : nx.id ∉ rest.map Player.id ∧ (rest.map Player.id).Nodup := by
        have h1' := h1
        rw [queueIds, hQ] at h1'
        simpa [List.nodup_cons] using h1'
      show Inv (renumberQueue (prepareRound nx
        { s with activePlayer := none, playerQueue := rest }).1).1
      apply inv_renumberQueue_of
      · show ((prepareRound nx
          { s with activePlayer := none, playerQueue := rest
          }).1.playerQueue.map Player.id).Nodup
        rw [prepareRound_fst_playerQueue]
        exact hids.2
      · intro x hx
        rw [Option.mem_toList, prepareRound_fst_activePlayer] at hx
        simp at hx
      · intro x hx
        show x.id ∉ queueIds (prepareRound nx
          { s with activePlayer := none, playerQueue := rest }).1
        rw [queueIds, prepareRound_fst_playerQueue]
        have hx' := hx
        rw [pendingPrepares, prepareRound_fst_pending, prepList_append] at hx'
        rcases List.mem_append.mp hx' with hmem | hmem
        · have hold := h3 x hmem
          rw [queueIds, hQ] at hold
          simp only [List.map_cons, List.mem_cons] at hold
          push_neg at hold
          exact hold.2
        · have hxnx : x = nx := by simpa [prepList] using hmem
          rw [hxnx]
          exact hids.1

theorem inv_mid_filter (s : ServerState) (a : Option Player) (gcs : Option Nat)
    (h1 : (queueIds s).Nodup)
    (h2 : ∀ p ∈ a.toList, p.id ∉ queueIds s)
    (h3 : ∀ p ∈ pendingPrepares s, p.id ∉ queueIds s)
    (h4 : positionsFrom s.lastQueueUpdate 0 s.playerQueue) :
    Inv { s with
      activePlayer := a, gameClientSocket := gcs, roundTimer := none,
      pending := match s.roundTimer with
        | some rt => s.pending.filter (fun tk => tk.1 != rt)
        | none => s.pending } := by
  refine ⟨h1, h2, ?_, h4⟩
  intro x hx
  rcases hr : s.roundTimer with _ | rt
  · rw [hr] at hx
    exact h3 x hx
  · rw [hr] at hx
    exact h3 x (mem_prepList_filter _ _ _ hx)

theorem inv_handleTimeUp (s : ServerState) (h : Inv s) : Inv (handleTimeUp s).1 := by
  obtain ⟨h1, h2, h3, h4⟩ := h
  unfold handleTimeUp
  rcases hA : s.activePlayer with _ | ap <;>
    rcases hG : s.gameClientSocket with _ | g
  · exact inv_mid_filter s none none h1 (by intro x hx; simp at hx) h3 h4
  · exact inv_mid_filter s none (some g) h1 (by intro x hx; simp at hx) h3 h4
  · exact inv_processEndOfRound _ _
      (inv_mid_filter s (some ap) none h1 (by rw [hA] at h2; exact h2) h3 h4)
  · exact inv_mid_filter s (some ap) (some g) h1
      (by rw [hA] at h2; exact h2) h3 h4

theorem inv_handleJoinGame (sid : Nat) (nm : String) (s : ServerState)
    (h : Inv s) (hq : sid ∉ queueIds s)
    (ha : s.activePlayer.map Player.id ≠ some sid)
    (hpp : sid ∉ (pendingPrepares s).map Player.id) :
    Inv (handleJoinGame sid nm s).1 := by
  obtain ⟨h1, h2, h3, h4⟩ := h
  unfold handleJoinGame
  by_cases hg : s.gameClientSocket = some sid
  · rw [if_pos hg]
    exact ⟨h1, h2, h3, h4⟩
  · rw [if_neg hg]
    by_cases hcond : s.activePlayer = none ∧ s.playerQueue = []
    · rw [if_pos hcond]
      exact inv_prepareRound _ _ ⟨h1, h2, h3, h4⟩ hq
    · rw [if_neg hcond]
      refine ⟨?_, ?_, ?_, ?_⟩
      · show ((s.playerQueue ++ [newPlayer sid nm]).map Player.id).Nodup
        rw [List.map_append, List.nodup_append]
        refine ⟨h1, List.nodup_singleton _, ?_⟩
        intro x hxq hxs
        simp only [List.map_cons, List.map_nil, List.mem_singleton] at hxs
        rw [hxs] at hxq
        exact hq hxq
      · intro x hx
        show x.id ∉ (s.playerQueue ++ [newPlayer sid nm]).map Player.id
        rw [List.map_append]
        intro hmem
        rcases List.mem_append.mp hmem with hm | hm
        · exact h2 x hx hm
        · simp only [List.map_cons, List.map_nil, List.mem_singleton] at hm
          rw [Option.mem_toList, Option.mem_def] at hx
          apply ha
          rw [hx]
          exact congrArg some hm
      · intro x hx
        show x.id ∉ (s.playerQueue ++ [newPlayer sid nm]).map Player.id
        rw [List.map_append]
        intro hmem
        rcases List.mem_append.mp hmem with hm | hm
        · exact h3 x hx hm
        · simp only [List.map_cons, List.map_nil, List.mem_singleton] at hm
          have hm' : x.id = sid := hm
          apply hpp
          rw [← hm']
          exact List.mem_map_of_mem _ hx
      · show positionsFrom (recordQU sid
            (s.playerQueue ++ [newPlayer sid nm]).length
            (s.playerQueue ++ [newPlayer sid nm]).length s.lastQueueUpdate) 0
            (s.playerQueue ++ [newPlayer sid nm])
        apply positionsFrom_append
        · apply positionsFrom_congr s.lastQueueUpdate _ 0 s.playerQueue
          · intro p hp
            apply lookupQU_cons_ne
            intro heq
            exact hq (heq ▸ List.mem_map_of_mem Player.id hp)
          · exact h4
        · have hl : lookupQU (newPlayer sid nm).id
              (recordQU sid (s.playerQueue ++ [newPlayer sid nm]).length
                (s.playerQueue ++ [newPlayer sid nm]).length s.lastQueueUpdate)
              = some ((s.playerQueue ++ [newPlayer sid nm]).length,
                  (s.playerQueue ++ [newPlayer sid nm]).length) :=
            lookupQU_cons_self _ _ _ _
          rw [hl]
          simp

theorem inv_handleUpdateScore (sid : Nat) (v : Int) (s : ServerState)
    (h : Inv s) : Inv (handleUpdateScore sid v s).1 := by
  obtain ⟨h1, h2, h3, h4⟩ := h
  unfold handleUpdateScore
  by_cases hg : s.gameClientSocket = some sid
  · rw [if_pos hg]
    rcases hA : s.activePlayer with _ | ap
    · exact ⟨h1, h2, h3, h4⟩
    · refine ⟨h1, ?_, h3, h4⟩
      intro x hx
      rw [Option.mem_toList, Option.mem_def, Option.some_inj] at hx
      rw [← hx]
      exact h2 ap (by rw [Option.mem_toList, Option.mem_def, hA])
  · rw [if_neg hg]
    exact ⟨h1, h2, h3, h4⟩

theorem inv_handleRegister (sid : Nat) (ct : ClientType) (s : ServerState)
    (h : Inv s) : Inv (handleRegister sid ct s).1 := by
  obtain ⟨h1, h2, h3, h4⟩ := h
  unfold handleRegister
  cases ct
  · rcases hg : s.gameClientSocket with _ | g
    · rcases hA : s.activePlayer with _ | ap
      · refine ⟨h1, ?_, h3, h4⟩
        intro x hx
        simp at hx
      · refine ⟨h1, ?_, h3, h4⟩
        intro x hx
        rw [Option.mem_toList, Option.mem_def, Option.some_inj] at hx
        rw [← hx]
        exact h2 ap (by rw [Option.mem_toList, Option.mem_def, hA])
    · exact ⟨h1, h2, h3, h4⟩
  · exact ⟨h1, h2, h3, h4⟩
  · exact ⟨h1, h2, h3, h4⟩

theorem inv_handleMove (sid : Nat) (d a : String) (s : ServerState)
    (h : Inv s) : Inv (handleMove sid d a s).1 := by
  unfold handleMove
  by_cases hh : isActiveHolder sid s = true
  · rw [if_pos hh]
    rcases hg : s.gameClientSocket with _ | g
    · exact h
    · exact h
  · rw [if_neg hh]
    exact h

theorem inv_handleEndGame (sid : Nat) (s : ServerState) (h : Inv s) :
    Inv (handleEndGame sid s).1 := by
  unfold handleEndGame
  by_cases hh : isActiveHolder sid s = true
  · rw [if_pos hh]
    exact inv_handleTimeUp s h
  · rw [if_neg hh]
    exact h

theorem inv_handleSubmitFinalScore (sid : Nat) (v : Int) (s : ServerState)
    (h : Inv s) : Inv (handleSubmitFinalScore sid v s).1 := by
  unfold handleSubmitFinalScore
  by_cases hc : s.gameClientSocket = some sid ∧ s.activePlayer ≠ none
  · rw [if_pos hc]
    exact inv_processEndOfRound v s h
  · rw [if_neg hc]
    exact h

theorem inv_handlePlayerDisconnect (sid : Nat) (s : ServerState) (h : Inv s) :
    Inv (handlePlayerDisconnect sid s).1 := by
  obtain ⟨h1, h2, h3, h4⟩ := h
  unfold handlePlayerDisconnect
  by_cases hh : isActiveHolder sid s = true
  · rw [if_pos hh]
    exact inv_handleTimeUp s ⟨h1, h2, h3, h4⟩
  · rw [if_neg hh]
    rcases hidx : queueIndexOf sid s.playerQueue with _ | i
    · exact ⟨h1, h2, h3, h4⟩
    · apply inv_renumberQueue_of
      · show ((s.playerQueue.eraseIdx i).map Player.id).Nodup
        exact ((s.playerQueue.eraseIdx_sublist i).map Player.id).nodup h1
      · intro x hx
        show x.id ∉ (s.playerQueue.eraseIdx i).map Player.id
        intro hmem
        exact h2 x hx
          (((s.playerQueue.eraseIdx_sublist i).map Player.id).subset hmem)
      · intro x hx
        show x.id ∉ (s.playerQueue.eraseIdx i).map Player.id
        intro hmem
        exact h3 x hx
          (((s.playerQueue.eraseIdx_sublist i).map Player.id).subset hmem)

theorem inv_handleDisconnect (sid : Nat) (s : ServerState) (h : Inv s) :
    Inv (handleDisconnect sid s).1 := by
  unfold handleDisconnect
  rcases hg : s.gameClientSocket with _ | g
  · exact inv_handlePlayerDisconnect sid s h
  · show Inv (if g = sid then
        (if ({ s with gameClientSocket := none } : ServerState).activePlayer ≠ none
          then handleTimeUp { s with gameClientSocket := none }
          else ({ s with gameClientSocket := none }, []))
        else handlePlayerDisconnect sid s).1
    by_cases he : g = sid
    · rw [if_pos he]
      by_cases ha :
          ({ s with gameClientSocket := none } : ServerState).activePlayer ≠ none
      · rw [if_pos ha]
        exact inv_handleTimeUp _ ⟨h.1, h.2.1, h.2.2.1, h.2.2.2⟩
      · rw [if_neg ha]
        exact ⟨h.1, h.2.1, h.2.2.1, h.2.2.2⟩
    · rw [if_neg he]
      exact inv_handlePlayerDisconnect sid s h

theorem inv_fireTimer (tid : Nat) (s : ServerState) (h : Inv s) :
    Inv (fireTimer tid s).1 := by
  obtain ⟨h1, h2, h3, h4⟩ := h
  unfold fireTimer
  rcases hl : List.lookup tid s.pending with _ | k
  · exact ⟨h1, h2, h3, h4⟩
  · cases k with
    | prepareT p =>
      have hp : p.id ∉ queueIds s :=
        h3 p (mem_prepList_of_mem (mem_of_lookup_eq_some hl))
      apply inv_startRound
      · refine ⟨h1, h2, ?_, h4⟩
        intro x hx
        exact h3 x (mem_prepList_filter _ _ _ hx)
      · exact hp
    | roundT =>
      apply inv_handleTimeUp
      refine ⟨h1, h2, ?_, h4⟩
      intro x hx
      exact h3 x (mem_prepList_filter _ _ _ hx)
    | tickT =>
      rcases hA : s.activePlayer with _ | ap
      · exact ⟨h1, h2, h3, h4⟩
      · exact ⟨h1, h2, h3, h4⟩

theorem inv_step (e : Event) (s : ServerState) (h : Inv s)
    (he : eventOk s e) : Inv (step e s).1 := by
  cases e with
  | register sid ct => exact inv_handleRegister sid ct s h
  | joinGame sid nm =>
    obtain ⟨hq, ha, hpp⟩ := he
    exact inv_handleJoinGame sid nm s h hq ha hpp
  | move sid d a => exact inv_handleMove sid d a s h
  | endGame sid => exact inv_handleEndGame sid s h
  | submitFinalScore sid v => exact inv_handleSubmitFinalScore sid v s h
  | updateScore sid v => exact inv_handleUpdateScore sid v s h
  | disconnect sid => exact inv_handleDisconnect sid s h
  | timerFire tid => exact inv_fireTimer tid s h

theorem inv_run : ∀ (es : List Event) (s : ServerState), Inv s → stepsOk s es →
    Inv (run es s).1 := by
  intro es
  induction es with
  | nil => intro s h _; exact h
  | cons e rest ih =>
    intro s h hok
    obtain ⟨h1, h2⟩ := hok
    exact ih (step e s).1 (inv_step e s h h1) h2

/-! ### Claim theorems -/

/-- C2: settlement is idempotent.  A second invocation of the settlement path
`processEndOfRound` for the same round, with the same or any different score
value, returns the state left by the first invocation unchanged and emits
nothing: only the first call changes state.  This holds because the first
invocation always leaves `activePlayer` cleared, and the guard at the top of
`processEndOfRound` makes any call with no active player a no-op. -/
theorem processEndOfRound_idempotent (v1 v2 : Int) (s : ServerState) :
    processEndOfRound v2 (processEndOfRound v1 s).1
      = ((processEndOfRound v1 s).1, []) :=
  processEndOfRound_of_active_none v2 _ (processEndOfRound_active_none v1 s)

/-- C6 (amended): a final-score report is a no-op (state unchanged, nothing
emitted) exactly when it does not originate from the bound resource session
or no requester is active; whenever it comes from the bound resource while
any requester is active — including mid-round, with no settlement pending —
it is acted upon and changes state. -/
theorem submitFinalScore_guard_iff (s : ServerState) (sid : Nat) (v : Int) :
    handleSubmitFinalScore sid v s = (s, [])
      ↔ ¬(s.gameClientSocket = some sid ∧ s.activePlayer ≠ none) := by
  unfold handleSubmitFinalScore
  by_cases hc : s.gameClientSocket = some sid ∧ s.activePlayer ≠ none
  · rw [if_pos hc]
    constructor
    · intro heq
      exfalso
      have h1 := processEndOfRound_active_none v s
      have h2 : (processEndOfRound v s).1.activePlayer = s.activePlayer :=
        congrArg (fun r => r.1.activePlayer) heq
      rw [h1] at h2
      exact hc.2 h2.symm
    · intro hn
      exact absurd hc hn
  · rw [if_neg hc]
    simp [hc]

/-- Witness for the C6 theorem: at the initial state (no resource bound, no
active player) a report is ignored with no state change. -/
theorem submitFinalScore_guard_iff_witness :
    handleSubmitFinalScore 9 42 initState = (initState, []) :=
  (submitFinalScore_guard_iff initState 9 42).mpr (by decide)

/-- C6 counterexample: with resource 9 bound and player 1 active mid-round —
no requestFinalScore was ever emitted, so no round is awaiting settlement —
an unprompted report from the resource is still acted upon: it settles the
round (clears the active player) and emits gameOver, refuting the claim that
it would be ignored with no state change. -/
theorem unprompted_submit_settles_active_round :
    (∀ e ∈ (run [Event.register 9 ClientType.game_client, Event.joinGame 1 "A",
        Event.timerFire 0] initState).2, e.msg ≠ Msg.requestFinalScore)
    ∧ boundActiveState.activePlayer = some (newPlayer 1 "A")
    ∧ (handleSubmitFinalScore 9 42 boundActiveState).1.activePlayer = none
    ∧ emitTo 1 (Msg.gameOver 42)
        ∈ (handleSubmitFinalScore 9 42 boundActiveState).2 := by
  decide

/-- C7 (amended): a move never changes state; it is forwarded to the resource
as gameAction exactly when the sender is the active holder and a resource is
bound, and otherwise nothing is emitted to anyone; endGame triggers the
settlement path `handleTimeUp` exactly when the sender is the active holder
and is otherwise a silent no-op.  No error is ever surfaced to the sender. -/
theorem control_input_authorization (sid : Nat) (d a : String)
    (s : ServerState) :
    (handleMove sid d a s).1 = s
    ∧ (handleMove sid d a s).2 = (match s.gameClientSocket with
        | some g =>
            if isActiveHolder sid s then [emitTo g (Msg.gameAction d a)] else []
        | none => [])
    ∧ handleEndGame sid s
        = (if isActiveHolder sid s then handleTimeUp s else (s, [])) := by
  refine ⟨?_, ?_, ?_⟩ <;>
    rcases hg : s.gameClientSocket with _ | g <;>
    by_cases hh : isActiveHolder sid s = true <;>
    simp [handleMove, handleEndGame, hg, hh]

/-- C7 counterexample: session 1 is the active holder but no resource is
bound; its move is dropped entirely — no gameAction is emitted although the
sender is the active holder — refuting the claimed equivalence that a move
from the active holder takes effect. -/
theorem holder_move_without_resource_dropped :
    isActiveHolder 1 soloActiveState = true
    ∧ soloActiveState.gameClientSocket = none
    ∧ handleMove 1 "left" "start" soloActiveState = (soloActiveState, []) := by
  decide

/-- C8: while a resource session is bound, a second game-client registration
from any socket leaves the binding and all other state unchanged, and the
offending connection is terminated (the server issues a disconnect command
for it, and nothing else). -/
theorem second_resource_registration_rejected (s : ServerState) (sid : Nat)
    (h : s.gameClientSocket ≠ none) :
    handleRegister sid ClientType.game_client s
      = (s, [emitTo sid Msg.disconnectSocket]) := by
  unfold handleRegister
  rcases hg : s.gameClientSocket with _ | g
  · exact absurd hg h
  · rfl

/-- Witness for the C8 theorem: with resource 9 bound, a registration attempt
from socket 5 changes nothing and terminates socket 5. -/
theorem second_resource_registration_witness :
    handleRegister 5 ClientType.game_client boundState
      = (boundState, [emitTo 5 Msg.disconnectSocket]) :=
  second_resource_registration_rejected boundState 5 (by decide)

/-- C10 (amended): a session registering as the resource while none is bound
becomes the bound resource; it is immediately sent waitingForPlayers exactly
when no round is active, and receives nothing at all when a round is active.
Everything else in the state is unchanged. -/
theorem register_resource_behavior (s : ServerState) (sid : Nat)
    (h : s.gameClientSocket = none) :
    handleRegister sid ClientType.game_client s
      = ({ s with gameClientSocket := some sid },
         if s.activePlayer = none then [emitTo sid Msg.waitingForPlayers]
         else []) := by
  unfold handleRegister
  rw [h]
  rcases hA : s.activePlayer with _ | ap <;> simp

/-- Witness for the C10 theorem: registering resource 9 while player 1 is
active binds the socket and emits nothing. -/
theorem register_resource_behavior_witness :
    handleRegister 9 ClientType.game_client soloActiveState
      = ({ soloActiveState with gameClientSocket := some 9 }, []) :=
  (register_resource_behavior soloActiveState 9 (by decide)).trans (by decide)

/-- C10 counterexample: a session registering as the resource while a round
is active (player 1 is active) receives no message at all — in particular
not the roundStart context for the current player that the claim says is
immediately delivered. -/
theorem late_resource_not_informed :
    soloActiveState.activePlayer = some (newPlayer 1 "A")
    ∧ (handleRegister 9 ClientType.game_client soloActiveState).2 = [] := by
  decide

theorem processEndOfRound_no_client (v : Int) (s : ServerState) (p : Player)
    (hA : s.activePlayer = some p) (hG : s.gameClientSocket = none) :
    emitTo p.id (Msg.gameOver v) ∈ (processEndOfRound v s).2
    ∧ ∀ e ∈ (processEndOfRound v s).2, e.msg ≠ Msg.requestFinalScore := by
  unfold processEndOfRound
  rw [hA, hG]
  rcases hQ : s.playerQueue with _ | ⟨nx, rest⟩
  · constructor
    · simp [emitTo]
    · intro e he
      simp only [List.nil_append, List.append_nil, List.mem_append,
        List.mem_singleton] at he
      rcases he with he | he <;> rw [he] <;> simp [emitTo]
  · constructor
    · simp [emitTo]
    · intro e he
      simp only [List.nil_append, List.mem_append, List.mem_singleton] at he
      rcases he with (he | he) | he
      · rw [he]; simp [emitTo]
      · have he2 : e ∈ [emitTo nx.id (Msg.prepareToPlay PREPARE_DURATION_MS)] := he
        rw [List.mem_singleton] at he2
        rw [he2]; simp [emitTo]
      · obtain ⟨x, pos, hx⟩ := renumberFrom_emits _ _ _ _ e he
        rw [hx]; simp [emitTo]

theorem handleTimeUp_no_client (s : ServerState) (p : Player)
    (hA : s.activePlayer = some p) (hG : s.gameClientSocket = none) :
    (handleTimeUp s).1.activePlayer = none
    ∧ emitTo p.id (Msg.gameOver p.score) ∈ (handleTimeUp s).2
    ∧ ∀ e ∈ (handleTimeUp s).2, e.msg ≠ Msg.requestFinalScore := by
  have heq : handleTimeUp s = processEndOfRound p.score
      { s with
        pending := match s.roundTimer with
          | some rt => s.pending.filter (fun tk => tk.1 != rt)
          | none => s.pending,
        roundTimer := none } := by
    unfold handleTimeUp
    rw [hA, hG]
  rw [heq]
  have hmid := processEndOfRound_no_client p.score
    { s with
      pending := match s.roundTimer with
        | some rt => s.pending.filter (fun tk => tk.1 != rt)
        | none => s.pending,
      roundTimer := none } p hA hG
  exact ⟨processEndOfRound_active_none _ _, hmid.1, hmid.2⟩

/-- C9: whenever the Active phase ends with no resource bound — the round
deadline elapsing with no resource registered (`handleTimeUp` with no game
client bound), or the bound resource disconnecting mid-round — the round
settles immediately with the last-known score held in the active record
(initialized to 0 by joinGame and advanced only by updateScore), the active
requester receives gameOver with exactly that score, and no
requestFinalScore is sent to anyone. -/
theorem settle_without_resource (s : ServerState) (p : Player)
    (hA : s.activePlayer = some p) :
    (s.gameClientSocket = none →
      (handleTimeUp s).1.activePlayer = none
      ∧ emitTo p.id (Msg.gameOver p.score) ∈ (handleTimeUp s).2
      ∧ ∀ e ∈ (handleTimeUp s).2, e.msg ≠ Msg.requestFinalScore)
    ∧ (∀ g, s.gameClientSocket = some g →
      (handleDisconnect g s).1.activePlayer = none
      ∧ emitTo p.id (Msg.gameOver p.score) ∈ (handleDisconnect g s).2
      ∧ ∀ e ∈ (handleDisconnect g s).2, e.msg ≠ Msg.requestFinalScore)
    ∧ ∀ (sid : Nat) (nmx : String), (newPlayer sid nmx).score = 0 := by
  refine ⟨?_, ?_, fun sid nmx => rfl⟩
  · intro hG
    exact handleTimeUp_no_client s p hA hG
  · intro g hg
    have hcond : ({ s with gameClientSocket := none } :
        ServerState).activePlayer ≠ none := by
      show s.activePlayer ≠ none
      rw [hA]
      simp
    have heq : handleDisconnect g s
        = handleTimeUp { s with gameClientSocket := none } := by
      unfold handleDisconnect
      rw [hg]
      show (if g = g then
          (if ({ s with gameClientSocket := none } :
              ServerState).activePlayer ≠ none
            then handleTimeUp { s with gameClientSocket := none }
            else ({ s with gameClientSocket := none }, []))
          else handlePlayerDisconnect g s) = _
      rw [if_pos rfl, if_pos hcond]
    rw [heq]
    exact handleTimeUp_no_client { s with gameClientSocket := none } p hA rfl

/-- Witness for the C9 theorem: both claim paths at concrete states — the
deadline path with player 1 active and no resource, and the resource
disconnect path with resource 9 bound and player 1 active; in both the round
settles with score 0 and gameOver reaches session 1. -/
theorem settle_without_resource_witness :
    ((handleTimeUp soloActiveState).1.activePlayer = none
      ∧ emitTo 1 (Msg.gameOver 0) ∈ (handleTimeUp soloActiveState).2)
    ∧ ((handleDisconnect 9 boundActiveState).1.activePlayer = none
      ∧ emitTo 1 (Msg.gameOver 0) ∈ (handleDisconnect 9 boundActiveState).2) :=
  ⟨⟨((settle_without_resource soloActiveState (newPlayer 1 "A")
        (by decide)).1 (by decide)).1,
    ((settle_without_resource soloActiveState (newPlayer 1 "A")
        (by decide)).1 (by decide)).2.1⟩,
   ⟨((settle_without_resource boundActiveState (newPlayer 1 "A")
        (by decide)).2.1 9 (by decide)).1,
    ((settle_without_resource boundActiveState (newPlayer 1 "A")
        (by decide)).2.1 9 (by decide)).2.1⟩⟩

/-- C1 (amended): for every sequence of inbound events in which no session
sends joinGame while it is already queued, already active, or already
awaiting its preparation timeout, the queue never contains two records with
the same session identity and the active requester never appears in the
queue.  At most one requester is active at a time holds by representation:
the active slot is the single optional record `activePlayer`. -/
theorem queue_invariants_of_no_rejoin (es : List Event)
    (hok : stepsOk initState es) :
    (queueIds (run es initState).1).Nodup
    ∧ ∀ p ∈ (run es initState).1.activePlayer.toList,
        p.id ∉ queueIds (run es initState).1 := by
  have h := inv_run es initState (by decide) hok
  exact ⟨h.1, h.2.1⟩

/-- Witness for the C1 theorem at a concrete admissible trace: player 1
plays, players 2 and 3 queue, player 2 disconnects. -/
theorem queue_invariants_of_no_rejoin_witness :
    (queueIds (run [Event.joinGame 1 "A", Event.timerFire 0,
        Event.joinGame 2 "B", Event.joinGame 3 "C", Event.disconnect 2]
        initState).1).Nodup
    ∧ ∀ p ∈ (run [Event.joinGame 1 "A", Event.timerFire 0,
        Event.joinGame 2 "B", Event.joinGame 3 "C", Event.disconnect 2]
        initState).1.activePlayer.toList,
        p.id ∉ queueIds (run [Event.joinGame 1 "A", Event.timerFire 0,
          Event.joinGame 2 "B", Event.joinGame 3 "C", Event.disconnect 2]
          initState).1 :=
  queue_invariants_of_no_rejoin
    [Event.joinGame 1 "A", Event.timerFire 0, Event.joinGame 2 "B",
     Event.joinGame 3 "C", Event.disconnect 2] (by decide)

/-- C1 counterexample: the joinGame handler never checks whether the sender
is already playing, so after the active requester (session 1) sends joinGame
again it is simultaneously the active holder and a member of the waiting
queue — the claimed invariant fails as stated. -/
theorem active_requester_in_queue_after_rejoin :
    (run [Event.joinGame 1 "A", Event.timerFire 0, Event.joinGame 1 "A"]
      initState).1.activePlayer = some (newPlayer 1 "A")
    ∧ (newPlayer 1 "A").id ∈ queueIds
        (run [Event.joinGame 1 "A", Event.timerFire 0, Event.joinGame 1 "A"]
          initState).1 := by
  decide

/-- C3 (amended): a joinGame from the bound resource session is silently
ignored with no state change (no AlreadyBound error is surfaced); when no
requester is active and the queue is empty the joiner goes directly to
Preparing — even when another requester is already Preparing, because the
code tracks no Preparing phase, only the active slot; in every other case
(a requester is active, which includes the Settling window, or the queue is
non-empty) the joiner is appended to the queue and notified of its 1-based
position and the queue total, both equal to the new queue length. -/
theorem joinGame_behavior (sid : Nat) (nm : String) (s : ServerState) :
    (s.gameClientSocket = some sid → handleJoinGame sid nm s = (s, []))
    ∧ (s.gameClientSocket ≠ some sid → s.activePlayer = none →
        s.playerQueue = [] →
        handleJoinGame sid nm s = prepareRound (newPlayer sid nm) s)
    ∧ (s.gameClientSocket ≠ some sid →
        ¬(s.activePlayer = none ∧ s.playerQueue = []) →
        (handleJoinGame sid nm s).1.playerQueue
            = s.playerQueue ++ [newPlayer sid nm]
        ∧ (handleJoinGame sid nm s).2
            = [emitTo sid (Msg.queueUpdate (s.playerQueue.length + 1)
                (s.playerQueue.length + 1))]) := by
  refine ⟨?_, ?_, ?_⟩
  · intro hg
    unfold handleJoinGame
    rw [if_pos hg]
  · intro hg hA hQ
    unfold handleJoinGame
    rw [if_neg hg, if_pos ⟨hA, hQ⟩]
  · intro hg hc
    unfold handleJoinGame
    rw [if_neg hg, if_neg hc]
    refine ⟨rfl, ?_⟩
    show [emitTo sid (Msg.queueUpdate (s.playerQueue ++ [newPlayer sid nm]).length
        (s.playerQueue ++ [newPlayer sid nm]).length)] = _
    rw [List.length_append]
    rfl

/-- Witness for the C3 theorem: all three branches at concrete states — the
bound resource joining at boundState, a joiner at the fully idle initial
state, and a joiner while player 1 is active. -/
theorem joinGame_behavior_witness :
    handleJoinGame 9 "X" boundState = (boundState, [])
    ∧ handleJoinGame 1 "A" initState = prepareRound (newPlayer 1 "A") initState
    ∧ (handleJoinGame 2 "B" soloActiveState).1.playerQueue
        = soloActiveState.playerQueue ++ [newPlayer 2 "B"]
    ∧ (handleJoinGame 2 "B" soloActiveState).2
        = [emitTo 2 (Msg.queueUpdate (soloActiveState.playerQueue.length + 1)
            (soloActiveState.playerQueue.length + 1))] :=
  ⟨(joinGame_behavior 9 "X" boundState).1 (by decide),
   (joinGame_behavior 1 "A" initState).2.1 (by decide) (by decide) (by decide),
   ((joinGame_behavior 2 "B" soloActiveState).2.2 (by decide) (by decide)).1,
   ((joinGame_behavior 2 "B" soloActiveState).2.2 (by decide) (by decide)).2⟩

/-- C3 counterexample: a second joiner arriving during the first joiner's
Preparing window (active slot empty, queue empty) is not appended to the
queue and receives no queueUpdate — it is sent prepareToPlay and given its
own preparation timeout instead, although a round is in the Preparing
phase. -/
theorem second_joiner_during_prepare_not_enqueued :
    (run [Event.joinGame 1 "A", Event.joinGame 2 "B"]
      initState).1.playerQueue = []
    ∧ pendingPrepares (run [Event.joinGame 1 "A", Event.joinGame 2 "B"]
        initState).1 = [newPlayer 1 "A", newPlayer 2 "B"]
    ∧ (run [Event.joinGame 1 "A", Event.joinGame 2 "B"] initState).2
        = [emitTo 1 (Msg.prepareToPlay PREPARE_DURATION_MS),
           emitTo 2 (Msg.prepareToPlay PREPARE_DURATION_MS)] := by
  decide

/-- C4 (code bug): after the stale-timer trace, the round-deadline timer
(handle 1) of the first, already-settled round is still pending while player
2 is active with its own round timer (handle 4) — the timer was not
cancelled when the Active phase was exited through the unprompted
submitFinalScore settlement.  When the stale timer fires it clears the new
round timer and emits requestFinalScore to the resource, firing the
settlement path for a round that already left the phase. -/
theorem stale_round_timer_fires_into_next_round :
    (1, TimerKind.roundT) ∈ (run staleTrace initState).1.pending
    ∧ (run staleTrace initState).1.activePlayer = some (newPlayer 2 "B")
    ∧ (run staleTrace initState).1.roundTimer = some 4
    ∧ (fireTimer 1 (run staleTrace initState).1).2
        = [emitTo 9 Msg.requestFinalScore]
    ∧ (fireTimer 1 (run staleTrace initState).1).1.roundTimer = none
    ∧ (4, TimerKind.roundT)
        ∉ (fireTimer 1 (run staleTrace initState).1).1.pending := by
  decide

/-- C5 (amended): for every sequence of inbound events in which no session
joins while already queued, active, or preparing, the positions last
reported to the queued players always form the contiguous range 1..N in
queue order, with N the current queue length.  The totals last reported,
however, are only as fresh as each waiter's own last notification: an
enqueue notifies only the new joiner, so earlier waiters keep stale totals
until the next dequeue-on-settlement or disconnect removal renumbers
everyone. -/
theorem reported_positions_contiguous (es : List Event)
    (hok : stepsOk initState es) :
    positionsFrom (run es initState).1.lastQueueUpdate 0
      (run es initState).1.playerQueue :=
  (inv_run es initState (by decide) hok).2.2.2

/-- Witness for the C5 theorem at a concrete admissible trace with an
enqueue of three waiters and a removal of the middle one. -/
theorem reported_positions_contiguous_witness :
    positionsFrom (run [Event.joinGame 1 "A", Event.timerFire 0,
        Event.joinGame 2 "B", Event.joinGame 3 "C", Event.joinGame 4 "D",
        Event.disconnect 3] initState).1.lastQueueUpdate 0
      (run [Event.joinGame 1 "A", Event.timerFire 0, Event.joinGame 2 "B",
        Event.joinGame 3 "C", Event.joinGame 4 "D", Event.disconnect 3]
        initState).1.playerQueue :=
  reported_positions_contiguous
    [Event.joinGame 1 "A", Event.timerFire 0, Event.joinGame 2 "B",
     Event.joinGame 3 "C", Event.joinGame 4 "D", Event.disconnect 3]
    (by decide)

/-- C5 counterexample: with player 1 active, session 2 queued (told position
1 of total 1) and then session 3 queued (told position 2 of total 2), the
queue length is 2 but the total last reported to waiter 2 is still 1 — the
reported totals do not all equal the current queue length after the
enqueue. -/
theorem stale_total_after_second_enqueue :
    (run [Event.joinGame 1 "A", Event.timerFire 0, Event.joinGame 2 "B",
      Event.joinGame 3 "C"] initState).1.playerQueue.length = 2
    ∧ 2 ∈ queueIds (run [Event.joinGame 1 "A", Event.timerFire 0,
        Event.joinGame 2 "B", Event.joinGame 3 "C"] initState).1
    ∧ (lookupQU 2 (run [Event.joinGame 1 "A", Event.timerFire 0,
        Event.joinGame 2 "B", Event.joinGame 3 "C"]
        initState).1.lastQueueUpdate).map Prod.snd = some 1 := by
  decide

end WebControllerUE
